import Mathlib

/-!
Verification of the design-by-contract core of this repository
(`include/boost/contract/check.hpp` plus the private/protected-virtual
counter example).

The `check` class (`check.hpp`) is the RAII guard: each of its
contract-taking constructors expands `BOOST_CONTRACT_CHECK_CTOR_DEF_`
(lines 31-41), which releases the condition holder (`cond_`, a
`detail::auto_ptr<detail::cond_base>`, lines 289-293) out of the
specification object and calls `cond_->initialize()`; the copy
constructor (lines 109-114) releases `cond_` out of the source into the
new object; the destructor (line 283, declared `noexcept(false)`) lets
the held condition holder run the exit-time checks and propagate any
failure exception.

The condition-holder classes themselves (`detail/condition/cond_base.hpp`
and friends), the specification-builder family (`core/specify.hpp`), the
old-value machinery and the public-function override composition are part
of this repository but are not under `src/`; following the development's
conventions those parts are modelled from the specification (their
definitions say so in their doc comments), while everything present in
`src/` is translated directly.

States are explicit (`σ` is the guarded object's state, `ρ` the guarded
function's result type, `ω` the old-value snapshot type); checks produce
an event trace so that the order and multiplicity of predicate
invocations can be stated; a failed check with the default (terminating)
failure handler is modelled as an `Except.error` that aborts the run.
-/

deriving instance DecidableEq for Except

/-- Class identifiers used to tag invariant checks in event traces
(`0` = `counter`, `1` = `counter10` in the example). -/
abbrev ClassId := Nat

/-- The `counter` class of the example. -/
def counterId : ClassId := 0

/-- The `counter10` class of the example. -/
def counter10Id : ClassId := 1

/-- Kinds of contract-check failures, matching the error taxonomy of the
failure handler (precondition / postcondition / entry-invariant /
exit-invariant / exception-guarantee violations). -/
inductive Violation where
  | pre : Violation
  | post : Violation
  | invEntry (cls : ClassId) : Violation
  | invExit (cls : ClassId) : Violation
  | exceptG : Violation
  deriving DecidableEq, BEq

/-- Events recorded while a guarded scope executes: each check predicate
invocation (with its outcome), old-value copies, and the body run. -/
inductive Ev where
  | invEntry (cls : ClassId) (ok : Bool) : Ev
  | preCheck (ok : Bool) : Ev
  | oldCopy : Ev
  | body : Ev
  | postCheck (ok : Bool) : Ev
  | exceptCheck (ok : Bool) : Ev
  | invExit (cls : ClassId) (ok : Bool) : Ev
  deriving DecidableEq, BEq

/-- The event is a postcondition-predicate invocation. -/
def Ev.isPost : Ev → Bool
  | .postCheck _ => true
  | _ => false

/-- The event is an exception-guarantee-predicate invocation. -/
def Ev.isExceptCheck : Ev → Bool
  | .exceptCheck _ => true
  | _ => false

/-- The event is a precondition-predicate invocation. -/
def Ev.isPreCheck : Ev → Bool
  | .preCheck _ => true
  | _ => false

/-- The event is an entry-invariant invocation. -/
def Ev.isInvEntry : Ev → Bool
  | .invEntry _ _ => true
  | _ => false

/-- The event is an exit-invariant invocation. -/
def Ev.isInvExit : Ev → Bool
  | .invExit _ _ => true
  | _ => false

/-- The event is the guarded body's execution. -/
def Ev.isBody : Ev → Bool
  | .body => true
  | _ => false

/-- Modelled from the spec: the calling context of a contract, produced by
the entry points `boost::contract::function`, `constructor`, `destructor`
and `public_function` (`core/specify.hpp`, not under `src/`). -/
inductive Ctx where
  | func : Ctx
  | ctor : Ctx
  | dtor : Ctx
  | pub : Ctx
  deriving DecidableEq

/-- Modelled from the spec: whether class invariants are checked at entry
(constructor entry never checks invariants; destructor and public-function
entry always do; non-member/non-public function contracts have none). -/
def Ctx.invAtEntry : Ctx → Bool
  | .func => false
  | .ctor => false
  | .dtor => true
  | .pub => true

/-- Modelled from the spec: whether class invariants are checked at exit
when the body completed normally (constructor exit on success and
public-function exit check them; destructor exit on normal completion does
not re-check). -/
def Ctx.invAtExitOk : Ctx → Bool
  | .func => false
  | .ctor => true
  | .dtor => false
  | .pub => true

/-- Modelled from the spec: whether class invariants are checked at exit
when the body threw (destructor exit checks invariants only on the
exception path; constructor exit on exception does not; public functions
check them regardless). -/
def Ctx.invAtExitExn : Ctx → Bool
  | .func => false
  | .ctor => false
  | .dtor => true
  | .pub => true

/-- Modelled from the spec: the type-erased condition holder
(`detail::cond_base` and subclasses, not under `src/`): at most one
predicate of each kind (precondition, old-value capture, postcondition,
exception guarantee) plus the invariant-checking duties implied by the
calling context. `invs` lists the class invariants to check (root first;
more than one entry only for override composition). -/
structure Cond (σ ρ ω : Type) where
  ctx : Ctx
  pre : Option (σ → Bool)
  oldOf : Option (σ → ω)
  post : Option (σ → ρ → Option ω → Bool)
  exceptG : Option (σ → Option ω → Bool)
  invs : List (ClassId × (σ → Bool))

/-- Modelled from the spec: run the class invariants at entry, stopping at
the first failure (the default failure handler terminates the program). -/
def runInvsEntry {σ : Type} (invs : List (ClassId × (σ → Bool))) (s : σ) :
    List Ev × Option Violation :=
  match invs with
  | [] => ([], none)
  | (nm, p) :: rest =>
    if p s then
      (Ev.invEntry nm true :: (runInvsEntry rest s).1, (runInvsEntry rest s).2)
    else ([Ev.invEntry nm false], some (Violation.invEntry nm))

/-- Modelled from the spec: run the class invariants at exit, stopping at
the first failure. -/
def runInvsExit {σ : Type} (invs : List (ClassId × (σ → Bool))) (s : σ) :
    List Ev × Option Violation :=
  match invs with
  | [] => ([], none)
  | (nm, p) :: rest =>
    if p s then
      (Ev.invExit nm true :: (runInvsExit rest s).1, (runInvsExit rest s).2)
    else ([Ev.invExit nm false], some (Violation.invExit nm))

/-- Modelled from the spec: `cond_->initialize()` as invoked by
`BOOST_CONTRACT_CHECK_CTOR_DEF_` (`check.hpp` lines 33-38; the
`cond_base` code itself is not under `src/`): class invariants at entry
(where the context applies them), then the precondition, then the
old-value copies, per the doc comment of `check` ("checks class
invariants at entry, preconditions, and makes old value copies at
body", `check.hpp` lines 52-54). Returns the captured old value. -/
def entryChecks {σ ρ ω : Type} (c : Cond σ ρ ω) (s : σ) :
    List Ev × Except Violation (Option ω) :=
  let invRes := if c.ctx.invAtEntry then runInvsEntry c.invs s else ([], none)
  match invRes.2 with
  | some v => (invRes.1, .error v)
  | none =>
    match c.pre with
    | some p =>
      if p s then
        (invRes.1 ++ [Ev.preCheck true] ++
          (match c.oldOf with | some _ => [Ev.oldCopy] | none => []),
         .ok (c.oldOf.map (fun f => f s)))
      else (invRes.1 ++ [Ev.preCheck false], .error .pre)
    | none =>
      (invRes.1 ++ (match c.oldOf with | some _ => [Ev.oldCopy] | none => []),
       .ok (c.oldOf.map (fun f => f s)))

/-- Modelled from the spec: exit-time checking when the body completed
without an exception (`cond_base` destructor path, not under `src/`):
postcondition first, then exit invariants where the context applies them
(spec section 8: "exit order on success is postcondition-check then
invariant-check"). -/
def checkExitOk {σ ρ ω : Type} (c : Cond σ ρ ω) (s : σ) (r : ρ)
    (old : Option ω) : List Ev × Option Violation :=
  let invRes := if c.ctx.invAtExitOk then runInvsExit c.invs s else ([], none)
  match c.post with
  | some q =>
    if q s r old then (Ev.postCheck true :: invRes.1, invRes.2)
    else ([Ev.postCheck false], some .post)
  | none => invRes

/-- Modelled from the spec: exit-time checking when the body threw:
exception guarantee first, then exit invariants where the context applies
them on the exception path. -/
def checkExitExn {σ ρ ω : Type} (c : Cond σ ρ ω) (s : σ)
    (old : Option ω) : List Ev × Option Violation :=
  let invRes := if c.ctx.invAtExitExn then runInvsExit c.invs s else ([], none)
  match c.exceptG with
  | some q =>
    if q s old then (Ev.exceptCheck true :: invRes.1, invRes.2)
    else ([Ev.exceptCheck false], some .exceptG)
  | none => invRes

/-- The RAII guard object of `check.hpp` (the example spells it
`boost::contract::guard`, an older name of the same class): it holds
zero or one condition holder (`cond_`, lines 289-293). -/
structure check (σ ρ ω : Type) where
  cond_ : Option (Cond σ ρ ω)

/-- The copy constructor of `check` (`check.hpp` lines 109-114):
`cond_(const_cast<check&>(other).cond_.release())`. Returns the pair
(new object, source after the release); the source is left empty. -/
def check.copyFrom {σ ρ ω : Type} (other : check σ ρ ω) :
    check σ ρ ω × check σ ρ ω :=
  ({ cond_ := other.cond_ }, { cond_ := none })

/-- The destructor of `check` (`check.hpp` line 283): if a condition
holder is present, run exit-time checks — the postcondition path when no
exception is propagating out of the body, the exception-guarantee path
when one is; an empty guard checks nothing. The result and old value are
passed explicitly here (the C++ holder stores them internally); the
checking itself lives in the `cond_base` destructor, not under `src/`,
and is modelled from the spec via `checkExitOk`/`checkExitExn`. -/
def check.dtor {σ ρ ω : Type} (c : check σ ρ ω) (s : σ) (r : ρ)
    (old : Option ω) (uncaught : Bool) : List Ev × Option Violation :=
  match c.cond_ with
  | none => ([], none)
  | some cond =>
    if uncaught then checkExitExn cond s old else checkExitOk cond s r old

/-- Modelled from the spec: a failure handler replaced by one that raises
a failure signal instead of terminating; the signal propagates out of the
guard's destructor, which `check.hpp` line 283 declares
`noexcept(false)` to allow. -/
def check.dtorThrow {σ ρ ω : Type} (c : check σ ρ ω) (s : σ) (r : ρ)
    (old : Option ω) (uncaught : Bool) : List Ev × Except Violation Unit :=
  match check.dtor c s r old uncaught with
  | (tr, some v) => (tr, .error v)
  | (tr, none) => (tr, .ok ())

/-- Result of a guarded body: normal completion with a state and return
value, or termination by a C++ exception with the state at the throw. -/
inductive BodyRes (σ ρ : Type) where
  | ok (s : σ) (r : ρ) : BodyRes σ ρ
  | exn (s : σ) : BodyRes σ ρ
  deriving DecidableEq

/-- A full guarded scope: guard construction (entry checks), the body
(which may itself contain nested guarded calls contributing events and
possibly a terminating violation), then guard destruction (exit checks
on the path matching how the body ended). -/
def runGuarded {σ ρ ω : Type} (c : Cond σ ρ ω)
    (bodyF : σ → List Ev × Except Violation (BodyRes σ ρ)) (s : σ) :
    List Ev × Except Violation (BodyRes σ ρ) :=
  match entryChecks c s with
  | (e1, .error v) => (e1, .error v)
  | (e1, .ok oldv) =>
    match bodyF s with
    | (e2, .error v) => (e1 ++ Ev.body :: e2, .error v)
    | (e2, .ok (.ok s' r')) =>
      match checkExitOk c s' r' oldv with
      | (e3, some v) => (e1 ++ Ev.body :: e2 ++ e3, .error v)
      | (e3, none) => (e1 ++ Ev.body :: e2 ++ e3, .ok (.ok s' r'))
    | (e2, .ok (.exn s')) =>
      match checkExitExn c s' oldv with
      | (e3, some v) => (e1 ++ Ev.body :: e2 ++ e3, .error v)
      | (e3, none) => (e1 ++ Ev.body :: e2 ++ e3, .ok (.exn s'))

/-- Modelled from the spec: the `boost::contract::function()` entry point
(`core/specify.hpp`, not under `src/`): precondition, old copies,
postcondition, exception guarantee; no class invariants. -/
def functionContract {σ ρ ω : Type} (pre : Option (σ → Bool))
    (oldOf : Option (σ → ω)) (post : Option (σ → ρ → Option ω → Bool))
    (exceptG : Option (σ → Option ω → Bool)) : Cond σ ρ ω :=
  { ctx := .func, pre := pre, oldOf := oldOf, post := post,
    exceptG := exceptG, invs := [] }

/-- Modelled from the spec: the `boost::contract::constructor()` entry
point (not under `src/`): its builder type offers no `.precondition`
call, so the condition holder never carries one. -/
def constructorContract {σ ρ ω : Type} (invs : List (ClassId × (σ → Bool)))
    (oldOf : Option (σ → ω)) (post : Option (σ → ρ → Option ω → Bool))
    (exceptG : Option (σ → Option ω → Bool)) : Cond σ ρ ω :=
  { ctx := .ctor, pre := none, oldOf := oldOf, post := post,
    exceptG := exceptG, invs := invs }

/-- Modelled from the spec: the `boost::contract::destructor()` entry
point (not under `src/`): no precondition. -/
def destructorContract {σ ρ ω : Type} (invs : List (ClassId × (σ → Bool)))
    (oldOf : Option (σ → ω)) (post : Option (σ → ρ → Option ω → Bool))
    (exceptG : Option (σ → Option ω → Bool)) : Cond σ ρ ω :=
  { ctx := .dtor, pre := none, oldOf := oldOf, post := post,
    exceptG := exceptG, invs := invs }

/-- Modelled from the spec: the `boost::contract::public_function` entry
point without an override registration (not under `src/`): the function's
own predicates plus its class's invariants, no composition with base
contracts. -/
def publicFunctionContract {σ ρ ω : Type}
    (invs : List (ClassId × (σ → Bool))) (pre : Option (σ → Bool))
    (oldOf : Option (σ → ω)) (post : Option (σ → ρ → Option ω → Bool))
    (exceptG : Option (σ → Option ω → Bool)) : Cond σ ρ ω :=
  { ctx := .pub, pre := pre, oldOf := oldOf, post := post,
    exceptG := exceptG, invs := invs }

/-- The precondition of a contract, as a satisfied/violated value at a
state; a contract declaring no precondition imposes nothing at entry. -/
def preHolds {σ ρ ω : Type} (c : Cond σ ρ ω) (s : σ) : Bool :=
  match c.pre with
  | none => true
  | some p => p s

/-- The postcondition of a contract as a satisfied/violated value; a
contract declaring none imposes nothing at exit. -/
def postHolds {σ ρ ω : Type} (c : Cond σ ρ ω) (s : σ) (r : ρ)
    (old : Option ω) : Bool :=
  match c.post with
  | none => true
  | some q => q s r old

/-- The exception guarantee of a contract as a satisfied/violated value. -/
def exceptHolds {σ ρ ω : Type} (c : Cond σ ρ ω) (s : σ)
    (old : Option ω) : Bool :=
  match c.exceptG with
  | none => true
  | some q => q s old

/-- Modelled from the spec: disjunction of the preconditions across an
override chain, evaluated with short-circuit (spec section 4.3:
"most-derived precondition OR any-ancestor precondition"). -/
def orPresAux {σ ρ ω : Type} (cs : List (Cond σ ρ ω)) (s : σ) : Bool :=
  match cs with
  | [] => false
  | c :: rest => preHolds c s || orPresAux rest s

/-- Modelled from the spec: conjunction of the postconditions across an
override chain ("most-derived postcondition AND all-ancestor
postconditions"). -/
def andPostsAux {σ ρ ω : Type} (cs : List (Cond σ ρ ω)) (s : σ) (r : ρ)
    (old : Option ω) : Bool :=
  match cs with
  | [] => true
  | c :: rest => postHolds c s r old && andPostsAux rest s r old

/-- Modelled from the spec: conjunction of the exception guarantees
across an override chain. -/
def andExceptsAux {σ ρ ω : Type} (cs : List (Cond σ ρ ω)) (s : σ)
    (old : Option ω) : Bool :=
  match cs with
  | [] => true
  | c :: rest => exceptHolds c s old && andExceptsAux rest s old

/-- Modelled from the spec: the contract of a public function registered
as an override (`public_function<override_f>(v, ..., this)`, machinery
not under `src/`): preconditions OR'd across the chain, postconditions and
exception guarantees AND'd, and the invariants of every class from the
root to the most-derived all checked; old-value capture is deferred to
the resolved (most-derived) contract. -/
def composeOverride {σ ρ ω : Type} (derived : Cond σ ρ ω)
    (bases : List (Cond σ ρ ω)) : Cond σ ρ ω :=
  { ctx := .pub
  , pre := some (fun s => orPresAux (derived :: bases) s)
  , oldOf := derived.oldOf
  , post := some (fun s r old => andPostsAux (derived :: bases) s r old)
  , exceptG := some (fun s old => andExceptsAux (derived :: bases) s old)
  , invs := (bases.map (fun b => b.invs)).flatten ++ derived.invs }

/-! The counter example (`src/unnamed/part_000`). The object state is the
`n_` field (an `int`, modelled as `Int`; the only machine-width-sensitive
expressions are the overflow-headroom preconditions, which compare
against `INT_MIN` explicitly, and `%`, which is C++ truncated division,
`Int.tmod`). Inside assertions and invariants contract checking is
disabled, so `get()` there reads `n_` directly; calls made from function
bodies run their full contracts and are modelled as nested guarded
runs. -/

/-- `std::numeric_limits<int>::min()` for 32-bit `int`. -/
def cMIN : Int := -2147483648

/-- `counter::invariant` (`part_000` lines 66-68): `get() <= 0`. -/
def counterInvariant (n : Int) : Bool := decide (n ≤ 0)

/-- `counter10::invariant` (`part_000` lines 126-128): `get() % 10 == 0`. -/
def counter10Invariant (n : Int) : Bool := decide (n.tmod 10 = 0)

/-- Contract of `counter::get` (`part_000` lines 51-62): a public
function with postcondition `result <= 0 && result == n_` and `counter`'s
invariant. -/
def counterGetCond : Cond Int Int Unit :=
  publicFunctionContract [(counterId, counterInvariant)] none none
    (some (fun s r _ => decide (r ≤ 0) && decide (r = s))) none

/-- `counter::get` as a guarded run: the body is `return result = n_`. -/
def counterGetChecked (n : Int) : List Ev × Except Violation (BodyRes Int Int) :=
  runGuarded counterGetCond (fun m => ([], .ok (.ok m m))) n

/-- The base precondition of `counter::set` (`part_000` line 37): `n <= 0`. -/
def counterSetPre (arg : Int) : Bool := decide (arg ≤ 0)

/-- Contract of `counter::set` (`part_000` lines 34-45): a
`boost::contract::function()` contract (no invariants) with precondition
`n <= 0` and postcondition `get() == n`. -/
def counterSetCond (arg : Int) : Cond Int Unit Unit :=
  functionContract (some (fun _ => counterSetPre arg)) none
    (some (fun s _ _ => decide (s = arg))) none

/-- `counter::set` as a guarded run: the body is `n_ = n`. -/
def counterSetChecked (arg : Int) (n : Int) :
    List Ev × Except Violation (BodyRes Int Unit) :=
  runGuarded (counterSetCond arg) (fun _ => ([], .ok (.ok arg ()))) n

/-- The base precondition of `counter::dec` (`part_000` lines 21-24):
`get() + 1 >= std::numeric_limits<int>::min()`. -/
def counterDecPre (n : Int) : Bool := decide (n + 1 ≥ cMIN)

/-- Contract of `counter::dec` (`part_000` lines 18-28): a
`boost::contract::function()` contract with the overflow-headroom
precondition, old capture of `get()`, and postcondition
`get() == *old_get - 1`. -/
def counterDecCond : Cond Int Unit Int :=
  functionContract (some counterDecPre) (some (fun n => n))
    (some (fun s _ old =>
      match old with
      | some o => decide (s = o - 1)
      | none => false)) none

/-- Body of `counter::dec` (`part_000` line 30): `set(get() - 1)`, both
calls running their own contracts. -/
def counterDecBody (n : Int) : List Ev × Except Violation (BodyRes Int Unit) :=
  match counterGetChecked n with
  | (e1, .error v) => (e1, .error v)
  | (e1, .ok (.exn s)) => (e1, .ok (.exn s))
  | (e1, .ok (.ok s g)) =>
    match counterSetChecked (g - 1) s with
    | (e2, r) => (e1 ++ e2, r)

/-- `counter::dec` as a guarded run. -/
def counterDec (n : Int) : List Ev × Except Violation (BodyRes Int Unit) :=
  runGuarded counterDecCond counterDecBody n

/-- The contract `counter10::get` declares for itself (`part_000` lines
115-121): no precondition or postcondition of its own, `counter10`'s
invariant; it is registered as overriding `counter::get`
(`BOOST_CONTRACT_OVERRIDE(get)`, line 122). -/
def counter10GetOwn : Cond Int Int Unit :=
  publicFunctionContract [(counter10Id, counter10Invariant)] none none
    none none

/-- The composed contract checked when `counter10::get` is reached
through the virtual dispatch (own contract composed with
`counter::get`'s). -/
def composedGet : Cond Int Int Unit :=
  composeOverride counter10GetOwn [counterGetCond]

/-- `counter10::get` called through a base-typed reference: the composed
contract around the body `return result = counter::get()` (an explicit,
contract-checked call of the base function, `part_000` line 120). -/
def counter10GetViaBase (n : Int) :
    List Ev × Except Violation (BodyRes Int Int) :=
  runGuarded composedGet (fun m => counterGetChecked m) n

/-- The derived precondition of `counter10::set` (`part_000` line 102):
`n % 10 == 0` (C++ truncated `%`). -/
def counter10SetPre (arg : Int) : Bool := decide (arg.tmod 10 = 0)

/-- Contract of `counter10::set` (`part_000` lines 99-107):
`public_function(v, this)` with no override registration — its own
precondition `n % 10 == 0`, postcondition `get() == n`, and `counter10`'s
invariant only. -/
def counter10SetCond (arg : Int) : Cond Int Unit Unit :=
  publicFunctionContract [(counter10Id, counter10Invariant)]
    (some (fun _ => counter10SetPre arg)) none
    (some (fun s _ _ => decide (s = arg))) none

/-- `counter10::set` as a guarded run: the body is `counter::set(n)`, an
explicit call running the base function's own contract. -/
def counter10SetChecked (arg : Int) (n : Int) :
    List Ev × Except Violation (BodyRes Int Unit) :=
  runGuarded (counter10SetCond arg) (fun m => counterSetChecked arg m) n

/-- The derived precondition of `counter10::dec` (`part_000` lines
87-90): `get() + 10 >= std::numeric_limits<int>::min()`. -/
def counter10DecPre (n : Int) : Bool := decide (n + 10 ≥ cMIN)

/-- Contract of `counter10::dec` (`part_000` lines 84-94):
`public_function(v, this)` with no override registration — its own
overflow-headroom precondition, deferred old capture of `get()`,
postcondition `get() == *old_get - 10`, and `counter10`'s invariant. -/
def counter10DecCond : Cond Int Unit Int :=
  publicFunctionContract [(counter10Id, counter10Invariant)]
    (some counter10DecPre) (some (fun n => n))
    (some (fun s _ old =>
      match old with
      | some o => decide (s = o - 10)
      | none => false)) none

/-- Body of `counter10::dec` (`part_000` line 96): `set(get() - 10)`;
`get()` dispatches virtually to `counter10::get` (composed contract) and
`set` to `counter10::set`. -/
def counter10DecBody (n : Int) :
    List Ev × Except Violation (BodyRes Int Unit) :=
  match counter10GetViaBase n with
  | (e1, .error v) => (e1, .error v)
  | (e1, .ok (.exn s)) => (e1, .ok (.exn s))
  | (e1, .ok (.ok s g)) =>
    match counter10SetChecked (g - 10) s with
    | (e2, r) => (e1 ++ e2, r)

/-- `counter10::dec` reached through a base-typed reference (`b.dec()`
dispatches virtually to `counter10::dec`). -/
def counter10DecViaBase (n : Int) :
    List Ev × Except Violation (BodyRes Int Unit) :=
  runGuarded counter10DecCond counter10DecBody n

/-- The guard class in the `BOOST_CONTRACT_NO_CONDITIONS` build (with
`BOOST_CONTRACT_STATIC_LINK` undefined): the `cond_` member is not even
declared (`check.hpp` lines 289-293), so a guard holds nothing. -/
structure checkNoConds where

/-- Guard construction from a contract in the no-conditions build:
`BOOST_CONTRACT_CHECK_CTOR_DEF_` expands to an empty body (`check.hpp`
lines 39-41) — no events, no condition holder. -/
def checkNoConds.ctorFromContract {σ ρ ω : Type} (_contract : Cond σ ρ ω) :
    List Ev × checkNoConds :=
  ([], {})

/-- Guard destruction in the no-conditions build: the destructor body is
empty (`check.hpp` line 283) and there is no condition holder, so no
checks run. -/
def checkNoConds.dtorRun (_c : checkNoConds) : List Ev × Option Violation :=
  ([], none)

/-- A guarded scope in the no-conditions build: constructing the guard
and destroying it contribute nothing; only the body runs. -/
def runGuardedNoConds {σ ρ ω : Type} (c : Cond σ ρ ω)
    (bodyF : σ → List Ev × Except Violation (BodyRes σ ρ)) (s : σ) :
    List Ev × Except Violation (BodyRes σ ρ) :=
  match checkNoConds.ctorFromContract c with
  | (e0, g) =>
    match bodyF s with
    | (e2, res) =>
      match checkNoConds.dtorRun g with
      | (e3, _) => (e0 ++ Ev.body :: e2 ++ e3, res)

/-- A body with no nested guarded calls: a pure state/result function,
the shape of every leaf body in the example (`n_ = n`,
`return result = n_`). -/
def pureBody {σ ρ : Type} (g : σ → BodyRes σ ρ) :
    σ → List Ev × Except Violation (BodyRes σ ρ) :=
  fun s => ([], .ok (g s))

/-- A contract whose postcondition always fails, used to exhibit a
failure signal escaping the guard's destructor. -/
def condPostFail : Cond Int Unit Unit :=
  functionContract none none (some (fun _ _ _ => false)) none


/-! Helper lemmas about the invariant runners: their traces consist of
invariant events only, a nonempty invariant list always produces at least
its first event, and a violation-free run records a passing event for
every listed class. -/

theorem runInvsEntry_any_false {σ : Type} (q : Ev → Bool)
    (hq : ∀ nm b, q (Ev.invEntry nm b) = false)
    (invs : List (ClassId × (σ → Bool))) (s : σ) :
    ((runInvsEntry invs s).1.any q) = false := by
  induction invs with
  | nil => simp [runInvsEntry]
  | cons hd rest ih =>
    obtain ⟨nm, p⟩ := hd
    cases hp : p s <;> simp [runInvsEntry, hp, hq, ih]

theorem runInvsExit_any_false {σ : Type} (q : Ev → Bool)
    (hq : ∀ nm b, q (Ev.invExit nm b) = false)
    (invs : List (ClassId × (σ → Bool))) (s : σ) :
    ((runInvsExit invs s).1.any q) = false := by
  induction invs with
  | nil => simp [runInvsExit]
  | cons hd rest ih =>
    obtain ⟨nm, p⟩ := hd
    cases hp : p s <;> simp [runInvsExit, hp, hq, ih]

theorem runInvsEntry_countP_zero {σ : Type} (q : Ev → Bool)
    (hq : ∀ nm b, q (Ev.invEntry nm b) = false)
    (invs : List (ClassId × (σ → Bool))) (s : σ) :
    ((runInvsEntry invs s).1.countP q) = 0 := by
  induction invs with
  | nil => simp [runInvsEntry]
  | cons hd rest ih =>
    obtain ⟨nm, p⟩ := hd
    cases hp : p s <;> simp [runInvsEntry, hp, List.countP_cons, hq, ih]

theorem runInvsExit_countP_zero {σ : Type} (q : Ev → Bool)
    (hq : ∀ nm b, q (Ev.invExit nm b) = false)
    (invs : List (ClassId × (σ → Bool))) (s : σ) :
    ((runInvsExit invs s).1.countP q) = 0 := by
  induction invs with
  | nil => simp [runInvsExit]
  | cons hd rest ih =>
    obtain ⟨nm, p⟩ := hd
    cases hp : p s <;> simp [runInvsExit, hp, List.countP_cons, hq, ih]

theorem runInvsEntry_filter_nil {σ : Type} (q : Ev → Bool)
    (hq : ∀ nm b, q (Ev.invEntry nm b) = false)
    (invs : List (ClassId × (σ → Bool))) (s : σ) :
    ((runInvsEntry invs s).1.filter q) = [] := by
  induction invs with
  | nil => simp [runInvsEntry]
  | cons hd rest ih =>
    obtain ⟨nm, p⟩ := hd
    cases hp : p s <;> simp [runInvsEntry, hp, List.filter_cons, hq, ih]

theorem runInvsExit_filter_nil {σ : Type} (q : Ev → Bool)
    (hq : ∀ nm b, q (Ev.invExit nm b) = false)
    (invs : List (ClassId × (σ → Bool))) (s : σ) :
    ((runInvsExit invs s).1.filter q) = [] := by
  induction invs with
  | nil => simp [runInvsExit]
  | cons hd rest ih =>
    obtain ⟨nm, p⟩ := hd
    cases hp : p s <;> simp [runInvsExit, hp, List.filter_cons, hq, ih]

theorem runInvsEntry_any_inv {σ : Type}
    (invs : List (ClassId × (σ → Bool))) (s : σ) :
    ((runInvsEntry invs s).1.any Ev.isInvEntry) = !invs.isEmpty := by
  cases invs with
  | nil => simp [runInvsEntry]
  | cons hd rest =>
    obtain ⟨nm, p⟩ := hd
    cases hp : p s <;> simp [runInvsEntry, hp, Ev.isInvEntry]

theorem runInvsExit_any_inv {σ : Type}
    (invs : List (ClassId × (σ → Bool))) (s : σ) :
    ((runInvsExit invs s).1.any Ev.isInvExit) = !invs.isEmpty := by
  cases invs with
  | nil => simp [runInvsExit]
  | cons hd rest =>
    obtain ⟨nm, p⟩ := hd
    cases hp : p s <;> simp [runInvsExit, hp, Ev.isInvExit]

theorem runInvsEntry_mem {σ : Type} (invs : List (ClassId × (σ → Bool)))
    (s : σ) (h : (runInvsEntry invs s).2 = none) (nm : ClassId)
    (p : σ → Bool) (hm : (nm, p) ∈ invs) :
    Ev.invEntry nm true ∈ (runInvsEntry invs s).1 := by
  induction invs with
  | nil => simp at hm
  | cons hd rest ih =>
    obtain ⟨nm0, p0⟩ := hd
    cases hp : p0 s with
    | false => simp [runInvsEntry, hp] at h
    | true =>
      simp only [runInvsEntry, hp, if_true] at h ⊢
      rcases List.mem_cons.mp hm with heq | htail
      · cases heq
        exact List.mem_cons_self _ _
      · exact List.mem_cons_of_mem _ (ih h htail)

theorem runInvsExit_mem {σ : Type} (invs : List (ClassId × (σ → Bool)))
    (s : σ) (h : (runInvsExit invs s).2 = none) (nm : ClassId)
    (p : σ → Bool) (hm : (nm, p) ∈ invs) :
    Ev.invExit nm true ∈ (runInvsExit invs s).1 := by
  induction invs with
  | nil => simp at hm
  | cons hd rest ih =>
    obtain ⟨nm0, p0⟩ := hd
    cases hp : p0 s with
    | false => simp [runInvsExit, hp] at h
    | true =>
      simp only [runInvsExit, hp, if_true] at h ⊢
      rcases List.mem_cons.mp hm with heq | htail
      · cases heq
        exact List.mem_cons_self _ _
      · exact List.mem_cons_of_mem _ (ih h htail)

/-- An exit-time predicate invocation: postcondition or exception
guarantee. -/
def Ev.isExitCheck (e : Ev) : Bool := e.isPost || e.isExceptCheck

theorem checkExitOk_any_post {σ ρ ω : Type} (c : Cond σ ρ ω) (s : σ)
    (r : ρ) (old : Option ω) :
    ((checkExitOk c s r old).1.any Ev.isPost) = c.post.isSome := by
  cases hq : c.post with
  | none =>
    cases hb : c.ctx.invAtExitOk <;>
      simp [checkExitOk, hq, hb,
        runInvsExit_any_false Ev.isPost (fun _ _ => rfl)]
  | some q =>
    cases hv : q s r old <;> cases hb : c.ctx.invAtExitOk <;>
      simp [checkExitOk, hq, hv, hb, Ev.isPost]

theorem checkExitOk_any_except {σ ρ ω : Type} (c : Cond σ ρ ω) (s : σ)
    (r : ρ) (old : Option ω) :
    ((checkExitOk c s r old).1.any Ev.isExceptCheck) = false := by
  cases hq : c.post with
  | none =>
    cases hb : c.ctx.invAtExitOk <;>
      simp [checkExitOk, hq, hb,
        runInvsExit_any_false Ev.isExceptCheck (fun _ _ => rfl)]
  | some q =>
    cases hv : q s r old <;> cases hb : c.ctx.invAtExitOk <;>
      simp [checkExitOk, hq, hv, hb, Ev.isExceptCheck,
        runInvsExit_any_false Ev.isExceptCheck (fun _ _ => rfl)]

theorem checkExitExn_any_post {σ ρ ω : Type} (c : Cond σ ρ ω) (s : σ)
    (old : Option ω) :
    ((checkExitExn c s old).1.any Ev.isPost) = false := by
  cases hq : c.exceptG with
  | none =>
    cases hb : c.ctx.invAtExitExn <;>
      simp [checkExitExn, hq, hb,
        runInvsExit_any_false Ev.isPost (fun _ _ => rfl)]
  | some q =>
    cases hv : q s old <;> cases hb : c.ctx.invAtExitExn <;>
      simp [checkExitExn, hq, hv, hb, Ev.isPost,
        runInvsExit_any_false Ev.isPost (fun _ _ => rfl)]

theorem checkExitExn_any_except {σ ρ ω : Type} (c : Cond σ ρ ω) (s : σ)
    (old : Option ω) :
    ((checkExitExn c s old).1.any Ev.isExceptCheck) = c.exceptG.isSome := by
  cases hq : c.exceptG with
  | none =>
    cases hb : c.ctx.invAtExitExn <;>
      simp [checkExitExn, hq, hb,
        runInvsExit_any_false Ev.isExceptCheck (fun _ _ => rfl)]
  | some q =>
    cases hv : q s old <;> cases hb : c.ctx.invAtExitExn <;>
      simp [checkExitExn, hq, hv, hb, Ev.isExceptCheck]

theorem checkExitOk_countP {σ ρ ω : Type} (c : Cond σ ρ ω) (s : σ)
    (r : ρ) (old : Option ω) :
    ((checkExitOk c s r old).1.countP Ev.isExitCheck)
      = (if c.post.isSome then 1 else 0) := by
  cases hq : c.post with
  | none =>
    cases hb : c.ctx.invAtExitOk <;>
      simp [checkExitOk, hq, hb,
        runInvsExit_countP_zero Ev.isExitCheck (fun _ _ => rfl)]
  | some q =>
    cases hv : q s r old <;> cases hb : c.ctx.invAtExitOk <;>
      simp [checkExitOk, hq, hv, hb, List.countP_cons, Ev.isExitCheck,
        Ev.isPost, Ev.isExceptCheck,
        runInvsExit_countP_zero Ev.isExitCheck (fun _ _ => rfl)]

theorem checkExitExn_countP {σ ρ ω : Type} (c : Cond σ ρ ω) (s : σ)
    (old : Option ω) :
    ((checkExitExn c s old).1.countP Ev.isExitCheck)
      = (if c.exceptG.isSome then 1 else 0) := by
  cases hq : c.exceptG with
  | none =>
    cases hb : c.ctx.invAtExitExn <;>
      simp [checkExitExn, hq, hb,
        runInvsExit_countP_zero Ev.isExitCheck (fun _ _ => rfl)]
  | some q =>
    cases hv : q s old <;> cases hb : c.ctx.invAtExitExn <;>
      simp [checkExitExn, hq, hv, hb, List.countP_cons, Ev.isExitCheck,
        Ev.isPost, Ev.isExceptCheck,
        runInvsExit_countP_zero Ev.isExitCheck (fun _ _ => rfl)]

theorem entryChecks_filter_body_nil {σ ρ ω : Type} (c : Cond σ ρ ω)
    (s : σ) : ((entryChecks c s).1.filter Ev.isBody) = [] := by
  have hinv : (((if c.ctx.invAtEntry then runInvsEntry c.invs s
      else ([], none)).1).filter Ev.isBody) = [] := by
    cases hb : c.ctx.invAtEntry <;>
      simp [runInvsEntry_filter_nil Ev.isBody (fun _ _ => rfl)]
  cases hv : (if c.ctx.invAtEntry then runInvsEntry c.invs s
      else ([], none)).2 with
  | some v => simp [entryChecks, hv, hinv]
  | none =>
    cases hp : c.pre with
    | none =>
      cases ho : c.oldOf <;>
        simp [entryChecks, hv, hp, ho, List.filter_append, hinv,
          List.filter_cons, Ev.isBody]
    | some p =>
      cases hps : p s <;> cases ho : c.oldOf <;>
        simp [entryChecks, hv, hp, hps, ho, List.filter_append, hinv,
          List.filter_cons, Ev.isBody]

theorem checkExitOk_filter_body_nil {σ ρ ω : Type} (c : Cond σ ρ ω)
    (s : σ) (r : ρ) (old : Option ω) :
    ((checkExitOk c s r old).1.filter Ev.isBody) = [] := by
  cases hq : c.post with
  | none =>
    cases hb : c.ctx.invAtExitOk <;>
      simp [checkExitOk, hq, hb,
        runInvsExit_filter_nil Ev.isBody (fun _ _ => rfl)]
  | some q =>
    cases hv : q s r old <;> cases hb : c.ctx.invAtExitOk <;>
      simp [checkExitOk, hq, hv, hb, List.filter_cons, Ev.isBody,
        runInvsExit_filter_nil Ev.isBody (fun _ _ => rfl)]

theorem checkExitExn_filter_body_nil {σ ρ ω : Type} (c : Cond σ ρ ω)
    (s : σ) (old : Option ω) :
    ((checkExitExn c s old).1.filter Ev.isBody) = [] := by
  cases hq : c.exceptG with
  | none =>
    cases hb : c.ctx.invAtExitExn <;>
      simp [checkExitExn, hq, hb,
        runInvsExit_filter_nil Ev.isBody (fun _ _ => rfl)]
  | some q =>
    cases hv : q s old <;> cases hb : c.ctx.invAtExitExn <;>
      simp [checkExitExn, hq, hv, hb, List.filter_cons, Ev.isBody,
        runInvsExit_filter_nil Ev.isBody (fun _ _ => rfl)]

theorem orPresAux_eq_any {σ ρ ω : Type} (cs : List (Cond σ ρ ω)) (s : σ) :
    orPresAux cs s = cs.any (fun c => preHolds c s) := by
  induction cs with
  | nil => simp [orPresAux]
  | cons c rest ih => simp [orPresAux, ih]

theorem andPostsAux_eq_all {σ ρ ω : Type} (cs : List (Cond σ ρ ω)) (s : σ)
    (r : ρ) (old : Option ω) :
    andPostsAux cs s r old = cs.all (fun c => postHolds c s r old) := by
  induction cs with
  | nil => simp [andPostsAux]
  | cons c rest ih => simp [andPostsAux, ih]

/-- Claim C1: at destruction of a guard bound to a contract, the
postcondition predicate is invoked if and only if the guarded body
completed without an exception (and the contract declares one), the
exception-guarantee predicate is invoked if and only if the body
terminated via an exception (and one is declared), and never both for
the same scope exit. -/
theorem C1_exit_checks {σ ρ ω : Type} (c : Cond σ ρ ω) (s : σ) (r : ρ)
    (old : Option ω) (uncaught : Bool) :
    ((check.dtor ⟨some c⟩ s r old uncaught).1.any Ev.isPost
        = (!uncaught && c.post.isSome))
  ∧ ((check.dtor ⟨some c⟩ s r old uncaught).1.any Ev.isExceptCheck
        = (uncaught && c.exceptG.isSome))
  ∧ (((check.dtor ⟨some c⟩ s r old uncaught).1.any Ev.isPost
        && (check.dtor ⟨some c⟩ s r old uncaught).1.any Ev.isExceptCheck)
        = false) := by
  cases uncaught <;>
    simp [check.dtor, checkExitOk_any_post, checkExitOk_any_except,
      checkExitExn_any_post, checkExitExn_any_except]

/-- Claim C2: copy construction transfers the held condition holder to
the new object and leaves the source empty; destroying the emptied
source performs no checks; destroying the transferred-to guard performs
exactly the checks the original would have performed; and destroying a
guard that still holds its condition holder fires the applicable exit
check (postcondition or exception guarantee) exactly once — never zero
times when one is declared, never twice. -/
theorem C2_ownership_transfer {σ ρ ω : Type} (c : Cond σ ρ ω) (s : σ)
    (r : ρ) (old : Option ω) (uncaught : Bool) :
    ((check.copyFrom (⟨some c⟩ : check σ ρ ω)).1.cond_ = some c)
  ∧ ((check.copyFrom (⟨some c⟩ : check σ ρ ω)).2.cond_ = none)
  ∧ (check.dtor (check.copyFrom (⟨some c⟩ : check σ ρ ω)).2 s r old uncaught
       = ([], none))
  ∧ (check.dtor (check.copyFrom (⟨some c⟩ : check σ ρ ω)).1 s r old uncaught
       = check.dtor ⟨some c⟩ s r old uncaught)
  ∧ ((check.dtor (⟨some c⟩ : check σ ρ ω) s r old uncaught).1.countP
        Ev.isExitCheck
      = (if uncaught then (if c.exceptG.isSome then 1 else 0)
         else (if c.post.isSome then 1 else 0))) := by
  refine ⟨rfl, rfl, rfl, rfl, ?_⟩
  cases uncaught <;>
    simp [check.dtor, checkExitOk_countP, checkExitExn_countP]

/-- Claim C3: for constructor contracts no precondition is evaluated and
no invariant is checked at entry, and the invariant is checked at exit
only on successful completion (not when an exception propagates); for
destructor contracts the invariant is checked at entry always and at
exit only if an exception propagated out of the body. -/
theorem C3_ctor_dtor_invariants {σ ρ ω : Type}
    (invs : List (ClassId × (σ → Bool))) (oldOf : Option (σ → ω))
    (post : Option (σ → ρ → Option ω → Bool))
    (exceptG : Option (σ → Option ω → Bool)) (s : σ) (r : ρ)
    (oldv : Option ω) :
    ((entryChecks (constructorContract invs oldOf post exceptG) s).1.any
        Ev.isPreCheck = false)
  ∧ ((entryChecks (constructorContract invs oldOf post exceptG) s).1.any
        Ev.isInvEntry = false)
  ∧ (postHolds (constructorContract invs oldOf post exceptG) s r oldv = true →
      ((checkExitOk (constructorContract invs oldOf post exceptG) s r
          oldv).1.any Ev.isInvExit = !invs.isEmpty))
  ∧ ((checkExitExn (constructorContract invs oldOf post exceptG) s
        oldv).1.any Ev.isInvExit = false)
  ∧ ((entryChecks (destructorContract invs oldOf post exceptG) s).1.any
        Ev.isInvEntry = !invs.isEmpty)
  ∧ ((checkExitOk (destructorContract invs oldOf post exceptG) s r
        oldv).1.any Ev.isInvExit = false)
  ∧ (exceptHolds (destructorContract invs oldOf post exceptG) s oldv = true →
      ((checkExitExn (destructorContract invs oldOf post exceptG) s
          oldv).1.any Ev.isInvExit = !invs.isEmpty)) := by
  refine ⟨?_, ?_, ?_, ?_, ?_, ?_, ?_⟩
  · cases ho : oldOf <;>
      simp [entryChecks, constructorContract, Ctx.invAtEntry, ho,
        Ev.isPreCheck]
  · cases ho : oldOf <;>
      simp [entryChecks, constructorContract, Ctx.invAtEntry, ho,
        Ev.isInvEntry]
  · intro hps
    cases hq : post with
    | none =>
      simp [checkExitOk, constructorContract, Ctx.invAtExitOk,
        runInvsExit_any_inv]
    | some q =>
      simp [postHolds, constructorContract, hq] at hps
      simp [checkExitOk, constructorContract, Ctx.invAtExitOk, hq, hps,
        Ev.isInvExit, runInvsExit_any_inv]
  · cases hq : exceptG with
    | none =>
      simp [checkExitExn, constructorContract, Ctx.invAtExitExn, hq]
    | some q =>
      cases hv : q s oldv <;>
        simp [checkExitExn, constructorContract, Ctx.invAtExitExn, hq, hv,
          Ev.isInvExit]
  · cases hv : (runInvsEntry invs s).2 <;> cases ho : oldOf <;>
      simp [entryChecks, destructorContract, Ctx.invAtEntry, ho, hv,
        List.any_append, Ev.isInvEntry, runInvsEntry_any_inv]
  · cases hq : post with
    | none =>
      simp [checkExitOk, destructorContract, Ctx.invAtExitOk, hq]
    | some q =>
      cases hv : q s r oldv <;>
        simp [checkExitOk, destructorContract, Ctx.invAtExitOk, hq, hv,
          Ev.isInvExit]
  · intro hxs
    cases hq : exceptG with
    | none =>
      simp [checkExitExn, destructorContract, Ctx.invAtExitExn,
        runInvsExit_any_inv]
    | some q =>
      simp [exceptHolds, destructorContract, hq] at hxs
      simp [checkExitExn, destructorContract, Ctx.invAtExitExn, hq, hxs,
        Ev.isInvExit, runInvsExit_any_inv]

/-- Claim C4: for a call through a base reference to a most-derived
override registered with the public-function machinery, the combined
precondition is satisfied iff the derived precondition OR any ancestor
precondition holds, the combined postcondition requires the derived AND
all ancestor postconditions, and on a violation-free run the invariants
of every class in the chain are checked (and pass) at both entry and
exit. -/
theorem C4_override_composition {σ ρ ω : Type} (d : Cond σ ρ ω)
    (bs : List (Cond σ ρ ω)) (s s' : σ) (r' : ρ) (oldv : Option ω) :
    (preHolds (composeOverride d bs) s
       = (preHolds d s || bs.any (fun b => preHolds b s)))
  ∧ (postHolds (composeOverride d bs) s' r' oldv
       = (postHolds d s' r' oldv && bs.all (fun b => postHolds b s' r' oldv)))
  ∧ (∀ res, (entryChecks (composeOverride d bs) s).2 = .ok res →
      (checkExitOk (composeOverride d bs) s' r' res).2 = none →
      ∀ nm pI, (nm, pI) ∈ (composeOverride d bs).invs →
        Ev.invEntry nm true ∈ (entryChecks (composeOverride d bs) s).1
        ∧ Ev.invExit nm true ∈ (checkExitOk (composeOverride d bs) s' r'
            res).1) := by
  refine ⟨?_, ?_, ?_⟩
  · simp [preHolds, composeOverride, orPresAux, orPresAux_eq_any]
  · simp [postHolds, composeOverride, andPostsAux, andPostsAux_eq_all]
  · intro res hok hexit nm pI hm
    have hctx : (composeOverride d bs).ctx = Ctx.pub := rfl
    have hpre : (composeOverride d bs).pre
        = some (fun t => orPresAux (d :: bs) t) := rfl
    have hpost : (composeOverride d bs).post
        = some (fun t u w => andPostsAux (d :: bs) t u w) := rfl
    constructor
    · cases hv : (runInvsEntry (composeOverride d bs).invs s).2 with
      | some v =>
        exfalso
        simp [entryChecks, hctx, Ctx.invAtEntry, hv] at hok
      | none =>
        have hmem := runInvsEntry_mem _ s hv nm pI hm
        cases hps : orPresAux (d :: bs) s with
        | false =>
          exfalso
          simp [entryChecks, hctx, hpre, Ctx.invAtEntry, hv, hps] at hok
        | true =>
          cases ho : (composeOverride d bs).oldOf with
          | none =>
            have htr : (entryChecks (composeOverride d bs) s).1
                = (runInvsEntry (composeOverride d bs).invs s).1
                    ++ [Ev.preCheck true] := by
              simp [entryChecks, hctx, hpre, Ctx.invAtEntry, hv, hps, ho]
            rw [htr]
            exact List.mem_append_left _ hmem
          | some f =>
            have htr : (entryChecks (composeOverride d bs) s).1
                = (runInvsEntry (composeOverride d bs).invs s).1
                    ++ [Ev.preCheck true] ++ [Ev.oldCopy] := by
              simp [entryChecks, hctx, hpre, Ctx.invAtEntry, hv, hps, ho]
            rw [htr]
            exact List.mem_append_left _ (List.mem_append_left _ hmem)
    · cases hps : andPostsAux (d :: bs) s' r' res with
      | false =>
        exfalso
        simp [checkExitOk, hctx, hpost, Ctx.invAtExitOk, hps] at hexit
      | true =>
        have hv : (runInvsExit (composeOverride d bs).invs s').2 = none := by
          simpa [checkExitOk, hctx, hpost, Ctx.invAtExitOk, hps]
            using hexit
        have hmem := runInvsExit_mem _ s' hv nm pI hm
        have htr : (checkExitOk (composeOverride d bs) s' r' res).1
            = Ev.postCheck true
                :: (runInvsExit (composeOverride d bs).invs s').1 := by
          simp [checkExitOk, hctx, hpost, Ctx.invAtExitOk, hps]
        rw [htr]
        exact List.mem_cons_of_mem _ hmem

/-- Claim C5: a fresh `counter` has value 0; one `dec()` yields −1 with
the base invariant holding; a fresh `counter10` through a base-typed
reference has value 0, and one `dec()` through that reference yields −10
with both invariants holding; no contract violation is reported on any
of these runs. -/
theorem C5_counter_scenario :
    ((counterGetChecked 0).2 = .ok (.ok 0 0))
  ∧ ((counterDec 0).2 = .ok (.ok (-1) ()))
  ∧ (counterInvariant (-1) = true)
  ∧ ((counter10GetViaBase 0).2 = .ok (.ok 0 0))
  ∧ ((counter10DecViaBase 0).2 = .ok (.ok (-10) ()))
  ∧ (counter10Invariant (-10) = true)
  ∧ (counterInvariant (-10) = true) := by
  decide

/-- Claim C6: for a guarded non-virtual function whose precondition
passes, guard construction records the precondition check and then the
old-value capture (of the entry state), and the body runs only after
both: the trace begins precondition, old copy, body. -/
theorem C6_entry_order {σ ρ ω : Type} (p : σ → Bool) (f : σ → ω)
    (post : Option (σ → ρ → Option ω → Bool))
    (exceptG : Option (σ → Option ω → Bool))
    (bodyF : σ → List Ev × Except Violation (BodyRes σ ρ)) (s : σ)
    (h : p s = true) :
    (entryChecks (functionContract (some p) (some f) post exceptG) s
       = ([Ev.preCheck true, Ev.oldCopy], .ok (some (f s))))
  ∧ (∃ rest, (runGuarded (functionContract (some p) (some f) post exceptG)
       bodyF s).1
       = Ev.preCheck true :: Ev.oldCopy :: Ev.body :: rest) := by
  have h1 : entryChecks (functionContract (some p) (some f) post exceptG) s
      = ([Ev.preCheck true, Ev.oldCopy], .ok (some (f s))) := by
    simp [entryChecks, functionContract, Ctx.invAtEntry, runInvsEntry, h]
  refine ⟨h1, ?_⟩
  unfold runGuarded
  rw [h1]
  rcases hb : bodyF s with ⟨e2, res⟩
  cases res with
  | error v => exact ⟨e2, by simp⟩
  | ok br =>
    cases br with
    | ok s' r' =>
      rcases hx : checkExitOk (functionContract (some p) (some f) post
          exceptG) s' r' (some (f s)) with ⟨e3, xv⟩
      cases xv with
      | some v => exact ⟨e2 ++ e3, by simp [hx]⟩
      | none => exact ⟨e2 ++ e3, by simp [hx]⟩
    | exn s' =>
      rcases hx : checkExitExn (functionContract (some p) (some f) post
          exceptG) s' (some (f s)) with ⟨e3, xv⟩
      cases xv with
      | some v => exact ⟨e2 ++ e3, by simp [hx]⟩
      | none => exact ⟨e2 ++ e3, by simp [hx]⟩

/-- Claim C7 fails on the code: calling the overriding `dec()` at value
−1 reports the derived class's entry-invariant violation
(`get() % 10 == 0` fails before any precondition is evaluated), not a
precondition violation — `counter10::dec`'s own precondition (overflow
headroom) holds at −1. -/
theorem C7_counterexample :
    ((counter10DecViaBase (-1)).2 = .error (Violation.invEntry counter10Id))
  ∧ ((Violation.invEntry counter10Id == Violation.pre) = false)
  ∧ (counter10DecPre (-1) = true) := by
  decide

/-- Claim C7 amended: calling the overriding `dec()` when the value is
not a multiple of ten (e.g. −1) triggers a contract violation of the
derived class, namely its entry-invariant check (`get() % 10 == 0`),
the first check to run; the "value is a multiple of ten" constraint
lives in `counter10`'s invariant and in `counter10::set`'s precondition
(which would also reject the new value −11), not in `dec`'s own
precondition, and both `dec` preconditions (derived and base
overflow-headroom) are satisfied at −1. -/
theorem C7_amended :
    ((counter10DecViaBase (-1)).2 = .error (Violation.invEntry counter10Id))
  ∧ (counter10Invariant (-1) = false)
  ∧ (counter10DecPre (-1) = true)
  ∧ (counterDecPre (-1) = true)
  ∧ (counter10SetPre (-11) = false) := by
  decide

/-- Claim C8: if the installed failure handler raises a failure signal
instead of terminating, that signal propagates out of the guard's
destructor (declared `noexcept(false)`, `check.hpp` line 283): any
failing exit check surfaces as an error escaping destruction rather than
being swallowed. -/
theorem C8_dtor_propagates {σ ρ ω : Type} (c : check σ ρ ω) (s : σ)
    (r : ρ) (old : Option ω) (uncaught : Bool) (v : Violation)
    (h : (check.dtor c s r old uncaught).2 = some v) :
    (check.dtorThrow c s r old uncaught).2 = .error v := by
  rcases hd : check.dtor c s r old uncaught with ⟨tr, ov⟩
  rw [hd] at h
  simp at h
  subst h
  simp [check.dtorThrow, hd]

/-- Claim C9: in the no-conditions build every guard constructor and the
guard destructor reduce to no-ops holding no condition holder, and for a
guarded scope whose checks-enabled run reports no violation the public
behavior is identical: same body result, and the traces agree once the
check events are erased (only the body event remains). -/
theorem C9_no_conditions_refinement {σ ρ ω : Type} (c : Cond σ ρ ω)
    (g : σ → BodyRes σ ρ) (s : σ) (br : BodyRes σ ρ)
    (h : (runGuarded c (pureBody g) s).2 = .ok br) :
    (checkNoConds.ctorFromContract c = ([], {}))
  ∧ (checkNoConds.dtorRun {} = ([], none))
  ∧ ((runGuardedNoConds c (pureBody g) s).2 = .ok br)
  ∧ (br = g s)
  ∧ ((runGuarded c (pureBody g) s).1.filter Ev.isBody
       = (runGuardedNoConds c (pureBody g) s).1) := by
  rcases he : entryChecks c s with ⟨e1, ini⟩
  have h1 : e1.filter Ev.isBody = [] := by
    have t := entryChecks_filter_body_nil c s
    rw [he] at t
    exact t
  cases ini with
  | error v =>
    exfalso
    simp [runGuarded, he] at h
  | ok oldv =>
    cases hg : g s with
    | ok s' r' =>
      rcases hx : checkExitOk c s' r' oldv with ⟨e3, xv⟩
      have h3 : e3.filter Ev.isBody = [] := by
        have t := checkExitOk_filter_body_nil c s' r' oldv
        rw [hx] at t
        exact t
      cases xv with
      | some v =>
        exfalso
        simp [runGuarded, he, pureBody, hg, hx] at h
      | none =>
        have hbr : BodyRes.ok s' r' = br := by
          have t := h
          simp [runGuarded, he, pureBody, hg, hx] at t
          exact t
        refine ⟨rfl, rfl, ?_, ?_, ?_⟩
        · simp [runGuardedNoConds, checkNoConds.ctorFromContract,
            checkNoConds.dtorRun, pureBody, hg]
          rw [hbr]
        · exact hbr.symm
        · simp [runGuarded, he, pureBody, hg, hx, runGuardedNoConds,
            checkNoConds.ctorFromContract, checkNoConds.dtorRun,
            List.filter_append, List.filter_cons, Ev.isBody, h1, h3]
    | exn s' =>
      rcases hx : checkExitExn c s' oldv with ⟨e3, xv⟩
      have h3 : e3.filter Ev.isBody = [] := by
        have t := checkExitExn_filter_body_nil c s' oldv
        rw [hx] at t
        exact t
      cases xv with
      | some v =>
        exfalso
        simp [runGuarded, he, pureBody, hg, hx] at h
      | none =>
        have hbr : BodyRes.exn s' = br := by
          have t := h
          simp [runGuarded, he, pureBody, hg, hx] at t
          exact t
        refine ⟨rfl, rfl, ?_, ?_, ?_⟩
        · simp [runGuardedNoConds, checkNoConds.ctorFromContract,
            checkNoConds.dtorRun, pureBody, hg]
          rw [hbr]
        · exact hbr.symm
        · simp [runGuarded, he, pureBody, hg, hx, runGuardedNoConds,
            checkNoConds.ctorFromContract, checkNoConds.dtorRun,
            List.filter_append, List.filter_cons, Ev.isBody, h1, h3]

/-- Claim C10: a virtual function contracted with `public_function(v,
this)` but without an override registration (the derived `dec` and
`set`) is checked against its own precondition, postcondition, and its
class's invariants only — never OR'd or AND'd with the base contract:
at argument −5 the derived `set` reports a precondition violation even
though the base `set` precondition (−5 ≤ 0) holds (no OR rescue), and
its contract carries exactly its own predicates and invariant list. -/
theorem C10_no_base_composition :
    ((counter10SetChecked (-5) 0).2 = .error Violation.pre)
  ∧ (counterSetPre (-5) = true)
  ∧ (counter10SetPre (-5) = false)
  ∧ ((counter10SetCond (-5)).invs = [(counter10Id, counter10Invariant)])
  ∧ ((counter10SetCond (-5)).pre = some (fun _ => counter10SetPre (-5))) := by
  refine ⟨by decide, by decide, by decide, rfl, rfl⟩

/-- Witness for C3 at a concrete instance: one always-true invariant on
integer states, no postcondition and no exception guarantee; the
constructor contract checks the invariant at successful exit and the
destructor contract checks it at exception exit. -/
theorem C3_ctor_dtor_invariants_witness :
    ((checkExitOk (constructorContract (σ := Int) (ρ := Unit) (ω := Unit)
        [(0, fun _ => true)] none none none) 0 () none).1.any Ev.isInvExit
      = true)
  ∧ ((checkExitExn (destructorContract (σ := Int) (ρ := Unit) (ω := Unit)
        [(0, fun _ => true)] none none none) 0 none).1.any Ev.isInvExit
      = true) := by
  have h := C3_ctor_dtor_invariants (σ := Int) (ρ := Unit) (ω := Unit)
    [(0, fun _ => true)] none none none 0 () none
  exact ⟨h.2.2.1 rfl, h.2.2.2.2.2.2 rfl⟩

/-- Witness for C4 at the example's `get` override composition: the base
class's invariant is checked (and passes) at entry and at exit of the
composed, violation-free run from state 0. -/
theorem C4_override_composition_witness :
    Ev.invEntry counterId true ∈ (entryChecks composedGet 0).1
  ∧ Ev.invExit counterId true ∈
      (checkExitOk composedGet 0 0 (none : Option Unit)).1 := by
  have h := C4_override_composition counter10GetOwn [counterGetCond] 0 0 0
    (none : Option Unit)
  exact h.2.2 none (by decide) (by decide) counterId counterInvariant
    (List.mem_cons_self _ _)

/-- Witness for C6 at `counter::dec`'s contract components at state 0:
the recorded entry sequence is precondition then old copy, capturing the
entry state. -/
theorem C6_entry_order_witness :
    entryChecks (functionContract (ρ := Unit) (some counterDecPre)
        (some (fun n : Int => n)) none none) 0
      = ([Ev.preCheck true, Ev.oldCopy], .ok (some 0)) := by
  have h := C6_entry_order (ρ := Unit) counterDecPre (fun n : Int => n)
    none none (fun _ => ([], .ok (.ok 0 ()))) 0 (by decide)
  exact h.1

/-- Witness for C8: a guard holding an always-failing postcondition; on
destruction with a throwing handler the failure escapes as an error. -/
theorem C8_dtor_propagates_witness :
    (check.dtorThrow (⟨some condPostFail⟩ : check Int Unit Unit) 0 () none
        false).2 = .error Violation.post :=
  C8_dtor_propagates _ 0 () none false Violation.post (by decide)

/-- Witness for C9 at the example's `get` contract with its pure body:
the no-conditions run returns the same result, and the enabled trace
erased of check events equals the no-conditions trace. -/
theorem C9_no_conditions_refinement_witness :
    ((runGuardedNoConds counterGetCond (pureBody (fun m => .ok m m)) 0).2
       = .ok (.ok 0 0))
  ∧ ((runGuarded counterGetCond (pureBody (fun m => .ok m m)) 0).1.filter
        Ev.isBody
     = (runGuardedNoConds counterGetCond (pureBody (fun m => .ok m m))
         0).1) := by
  have h := C9_no_conditions_refinement counterGetCond
    (fun m => BodyRes.ok m m) 0 (BodyRes.ok 0 0) (by decide)
  exact ⟨h.2.2.1, h.2.2.2.2⟩
